import Mathlib

/-!
Shallow embedding of the MedScan emergency face-scan feature:
the multi-stage face-recognition flow (`src/unnamed/part_000`,
`faceRecognitionFlow`) and the scan-workflow state machine
(`src/src/app/face-scan/page.tsx`).

External prompt calls (the scorer and the final verifier) are modelled as
oracle functions supplied as parameters; one call can fail (`err`, a thrown
exception), return no structured output (`noOutput`), or return a value.
Scores are rationals, standing in for the JS numbers in [0,100]; only
comparisons are ever performed on them, so the embedding is exact.
The flow result carries a trace of the external calls made, in order, so
that claims about "never scored" / "exactly one confirmatory check" can be
stated.
-/

/-- A registered patient record. Only the fields the recognition flow reads
(`id`, `name`, `faceImageUrl`) are modelled; `faceImageUrl` is `none` when the
record has no face image (JS `undefined`/`null`). -/
structure PatientData where
  id : String
  name : String
  faceImageUrl : Option String
deriving DecidableEq, Repr

/-- Outcome of one `faceScoringPrompt` call: the promise rejects (`err`, caught
by the flow), resolves with a falsy `output` (`noOutput`), or resolves with a
confidence score. -/
inductive ScoreOutcome where
  | err : ScoreOutcome
  | noOutput : ScoreOutcome
  | score : ℚ → ScoreOutcome
deriving DecidableEq, Repr

/-- Outcome of one `finalVerificationPrompt` call: rejection (`err`), falsy
output (`noOutput`), or a boolean `isMatch` verdict. -/
inductive VerifyOutcome where
  | err : VerifyOutcome
  | noOutput : VerifyOutcome
  | isMatch : Bool → VerifyOutcome
deriving DecidableEq, Repr

/-- JS `String.prototype.startsWith`: the receiver's characters begin with the
argument's characters. -/
def strStartsWith (s pre : String) : Bool := pre.data.isPrefixOf s.data

/-- The skip test of the loop: `!patient.faceImageUrl ||
!patient.faceImageUrl.startsWith('data:image')` means a candidate is usable
exactly when the image URL is present and starts with `data:image` (the empty
string is falsy in JS but also fails `startsWith`, so `Option String` with
this test is faithful). -/
def usableImage : Option String → Bool
  | none => false
  | some url => strStartsWith url "data:image"

/-- The `bestCandidate` record tracked by stage 1. -/
structure BestCandidate where
  patient : PatientData
  score : ℚ
deriving DecidableEq, Repr

def HIGH_CONFIDENCE_THRESHOLD : ℚ := 95

def MINIMUM_CONFIDENCE_THRESHOLD : ℚ := 75

/-- One external call made by the flow, recorded in the trace. -/
inductive FlowEvent where
  | scoreCall : PatientData → FlowEvent
  | verifyCall : PatientData → FlowEvent
deriving DecidableEq, Repr

/-- How stage 1 (the scoring loop) ends: an immediate high-confidence return,
or falling through with the tracked best candidate. -/
inductive Stage1Result where
  | earlyMatch : PatientData → Stage1Result
  | done : Option BestCandidate → Stage1Result
deriving DecidableEq, Repr

/-- Prepend one recorded call to a stage-1 outcome. -/
def consEvent (e : FlowEvent) (x : Stage1Result × List FlowEvent) :
    Stage1Result × List FlowEvent :=
  (x.1, e :: x.2)

/-- The best-candidate update:
`if (output.confidenceScore > (bestCandidate?.score || 0))`. The `|| 0`
coalesces both a missing best candidate and a recorded score of `0` to `0`;
since `if b.score = 0 then 0 else b.score = b.score`, `Option.getD _ 0` is
exact. -/
def bestStep (b : Option BestCandidate) (patient : PatientData) (s : ℚ) :
    Option BestCandidate :=
  if s > Option.getD (Option.map BestCandidate.score b) 0 then some ⟨patient, s⟩ else b

/-- STAGE 1 of `faceRecognitionFlow`: iterate the registered patients in
order, skip unusable images, score the rest, return immediately on a score
meeting the high-confidence threshold, otherwise track the best candidate.
A thrown scoring call (`err`) and a falsy output (`noOutput`) both record
nothing and continue. The second component is the trace of scorer calls. -/
def stage1 (scorer : String → String → ScoreOutcome) (probe : String) :
    List PatientData → Option BestCandidate → Stage1Result × List FlowEvent
  | [], best => (Stage1Result.done best, [])
  | patient :: rest, best =>
    if usableImage patient.faceImageUrl then
      match scorer probe (patient.faceImageUrl.getD "") with
      | ScoreOutcome.err =>
          consEvent (FlowEvent.scoreCall patient) (stage1 scorer probe rest best)
      | ScoreOutcome.noOutput =>
          consEvent (FlowEvent.scoreCall patient) (stage1 scorer probe rest best)
      | ScoreOutcome.score s =>
          if HIGH_CONFIDENCE_THRESHOLD ≤ s then
            (Stage1Result.earlyMatch patient, [FlowEvent.scoreCall patient])
          else
            consEvent (FlowEvent.scoreCall patient)
              (stage1 scorer probe rest (bestStep best patient s))
    else stage1 scorer probe rest best

/-- The flow's output record, extended with the trace of external calls. -/
structure FlowResult where
  matchFound : Bool
  patient : Option PatientData
  trace : List FlowEvent
deriving DecidableEq, Repr

/-- STAGES 2–3 of `faceRecognitionFlow`: an early high-confidence match is
returned as-is; otherwise, when a best candidate was recorded and its score
meets the minimum threshold, exactly one final verification runs against it
(`bestCandidate.patient.faceImageUrl!` is modelled by `Option.getD _ ""`); an
affirmative answer returns the match, while a negative answer, a falsy output,
or a thrown verification call all fall through to the final no-match return. -/
def stage2 (verifier : String → String → String → VerifyOutcome) (probe : String) :
    Stage1Result × List FlowEvent → FlowResult
  | (Stage1Result.earlyMatch patient, t) => ⟨true, some patient, t⟩
  | (Stage1Result.done none, t) => ⟨false, none, t⟩
  | (Stage1Result.done (some bc), t) =>
    if MINIMUM_CONFIDENCE_THRESHOLD ≤ bc.score then
      match verifier probe (bc.patient.faceImageUrl.getD "") bc.patient.name with
      | VerifyOutcome.isMatch true =>
          ⟨true, some bc.patient, t ++ [FlowEvent.verifyCall bc.patient]⟩
      | _ => ⟨false, none, t ++ [FlowEvent.verifyCall bc.patient]⟩
    else ⟨false, none, t⟩

/-- `faceRecognitionFlow` from `src/unnamed/part_000`: empty roster returns
no-match at once; otherwise stage 1 scores the candidates, and `stage2` runs
the best-candidate verification. -/
def faceRecognitionFlow (scorer : String → String → ScoreOutcome)
    (verifier : String → String → String → VerifyOutcome)
    (capturedPhotoDataUri : String) (registeredPatients : List PatientData) :
    FlowResult :=
  if registeredPatients.length = 0 then ⟨false, none, []⟩
  else
    stage2 verifier capturedPhotoDataUri
      (stage1 scorer capturedPhotoDataUri registeredPatients none)

/-- Recognizer for score-call events in a trace. -/
def isScoreCall : FlowEvent → Bool
  | FlowEvent.scoreCall _ => true
  | FlowEvent.verifyCall _ => false

/-- Recognizer for verify-call events in a trace. -/
def isVerifyCall : FlowEvent → Bool
  | FlowEvent.scoreCall _ => false
  | FlowEvent.verifyCall _ => true

def numScoreCalls (t : List FlowEvent) : Nat := t.countP isScoreCall

def numVerifyCalls (t : List FlowEvent) : Nat := t.countP isVerifyCall

/-- The scorer-call trace stage 1 produces when it never returns early: one
call per candidate with a usable reference image, in order. -/
def scoreTrace (l : List PatientData) : List FlowEvent :=
  (l.filter fun p => usableImage p.faceImageUrl).map FlowEvent.scoreCall

/-- The (candidate, score) pairs actually obtained from the scorer: usable
candidates whose call resolves with a score, in order. -/
def scoredList (scorer : String → String → ScoreOutcome) (probe : String)
    (l : List PatientData) : List (PatientData × ℚ) :=
  l.filterMap fun p =>
    if usableImage p.faceImageUrl then
      match scorer probe (p.faceImageUrl.getD "") with
      | ScoreOutcome.score s => some (p, s)
      | _ => none
    else none

/-- Folding the best-candidate update over obtained scores. -/
def bestFold (b : Option BestCandidate) (sl : List (PatientData × ℚ)) :
    Option BestCandidate :=
  sl.foldl (fun b q => bestStep b q.1 q.2) b

/-- Whether a candidate's scoring call would come back with a score meeting
the high-confidence threshold. -/
def highHit (scorer : String → String → ScoreOutcome) (probe : String)
    (p : PatientData) : Bool :=
  usableImage p.faceImageUrl &&
    (match scorer probe (p.faceImageUrl.getD "") with
     | ScoreOutcome.score s => decide (HIGH_CONFIDENCE_THRESHOLD ≤ s)
     | _ => false)

/-- Earliest-maximum characterization used by the best-candidate claims: the
chosen pair occurs in the scored list with a positive score, everything before
it scores strictly lower, everything after it scores no higher. -/
def EarliestMax (sl : List (PatientData × ℚ)) (bc : BestCandidate) : Prop :=
  ∃ u v, sl = u ++ (bc.patient, bc.score) :: v ∧ 0 < bc.score ∧
    (∀ q ∈ u, q.2 < bc.score) ∧ (∀ q ∈ v, q.2 ≤ bc.score)

theorem highHit_true {scorer : String → String → ScoreOutcome} {probe : String}
    {p : PatientData} (h : highHit scorer probe p = true) :
    usableImage p.faceImageUrl = true ∧
      ∃ s, scorer probe (p.faceImageUrl.getD "") = ScoreOutcome.score s ∧
        HIGH_CONFIDENCE_THRESHOLD ≤ s := by
  unfold highHit at h
  rw [Bool.and_eq_true] at h
  refine ⟨h.1, ?_⟩
  have h2 := h.2
  cases hsc : scorer probe (p.faceImageUrl.getD "") with
  | err => rw [hsc] at h2; exact absurd h2 (by simp)
  | noOutput => rw [hsc] at h2; exact absurd h2 (by simp)
  | score s => exact ⟨s, rfl, by rw [hsc] at h2; exact of_decide_eq_true h2⟩

theorem highHit_false_score {scorer : String → String → ScoreOutcome} {probe : String}
    {p : PatientData} {s : ℚ} (h : highHit scorer probe p = false)
    (hu : usableImage p.faceImageUrl = true)
    (hsc : scorer probe (p.faceImageUrl.getD "") = ScoreOutcome.score s) :
    ¬ HIGH_CONFIDENCE_THRESHOLD ≤ s := by
  unfold highHit at h
  rw [hu, hsc] at h
  simpa using h

/-- When no candidate in the list would hit the high-confidence threshold,
stage 1 falls through: the best candidate is the fold of the update over the
obtained scores, and the trace is one scorer call per usable candidate. -/
theorem stage1_no_high (scorer : String → String → ScoreOutcome) (probe : String)
    (l : List PatientData) :
    ∀ best : Option BestCandidate, (∀ p ∈ l, highHit scorer probe p = false) →
      stage1 scorer probe l best =
        (Stage1Result.done (bestFold best (scoredList scorer probe l)), scoreTrace l) := by
  induction l with
  | nil => intro best _; simp [stage1, bestFold, scoredList, scoreTrace]
  | cons patient rest ih =>
    intro best h
    have hp : highHit scorer probe patient = false := h patient (by simp)
    have hrest : ∀ p ∈ rest, highHit scorer probe p = false := by
      intro p hm; exact h p (by simp [hm])
    by_cases hu : usableImage patient.faceImageUrl
    · cases hsc : scorer probe (patient.faceImageUrl.getD "") with
      | err =>
        rw [show stage1 scorer probe (patient :: rest) best =
            consEvent (FlowEvent.scoreCall patient) (stage1 scorer probe rest best) by
          simp [stage1, hu, hsc]]
        rw [ih best hrest]
        simp [consEvent, scoredList, scoreTrace, hu, hsc]
      | noOutput =>
        rw [show stage1 scorer probe (patient :: rest) best =
            consEvent (FlowEvent.scoreCall patient) (stage1 scorer probe rest best) by
          simp [stage1, hu, hsc]]
        rw [ih best hrest]
        simp [consEvent, scoredList, scoreTrace, hu, hsc]
      | score s =>
        have hlt : ¬ HIGH_CONFIDENCE_THRESHOLD ≤ s := highHit_false_score hp hu hsc
        rw [show stage1 scorer probe (patient :: rest) best =
            consEvent (FlowEvent.scoreCall patient)
              (stage1 scorer probe rest (bestStep best patient s)) by
          simp [stage1, hu, hsc, hlt]]
        rw [ih (bestStep best patient s) hrest]
        simp [consEvent, scoredList, scoreTrace, bestFold, hu, hsc]
    · rw [show stage1 scorer probe (patient :: rest) best =
          stage1 scorer probe rest best by simp [stage1, hu]]
      rw [ih best hrest]
      simp [scoredList, scoreTrace, hu]

/-- When a prefix of the roster contains no high-confidence hit and the next
candidate is one, stage 1 returns that candidate immediately; the trace shows
one scorer call per usable prefix candidate plus the hit, and nothing from the
rest of the roster. -/
theorem stage1_early (scorer : String → String → ScoreOutcome) (probe : String)
    (l₁ : List PatientData) (p : PatientData) (l₂ : List PatientData) :
    ∀ best : Option BestCandidate, (∀ q ∈ l₁, highHit scorer probe q = false) →
      highHit scorer probe p = true →
      stage1 scorer probe (l₁ ++ p :: l₂) best =
        (Stage1Result.earlyMatch p, scoreTrace l₁ ++ [FlowEvent.scoreCall p]) := by
  induction l₁ with
  | nil =>
    intro best _ hp
    obtain ⟨hu, s, hsc, hge⟩ := highHit_true hp
    simp [stage1, hu, hsc, hge, scoreTrace]
  | cons q l₁ ih =>
    intro best h hp
    have hq : highHit scorer probe q = false := h q (by simp)
    have hl : ∀ r ∈ l₁, highHit scorer probe r = false := by
      intro r hm; exact h r (by simp [hm])
    by_cases hu : usableImage q.faceImageUrl
    · cases hsc : scorer probe (q.faceImageUrl.getD "") with
      | err =>
        rw [List.cons_append,
          show stage1 scorer probe (q :: (l₁ ++ p :: l₂)) best =
            consEvent (FlowEvent.scoreCall q) (stage1 scorer probe (l₁ ++ p :: l₂) best) by
          simp [stage1, hu, hsc]]
        rw [ih best hl hp]
        simp [consEvent, scoreTrace, hu]
      | noOutput =>
        rw [List.cons_append,
          show stage1 scorer probe (q :: (l₁ ++ p :: l₂)) best =
            consEvent (FlowEvent.scoreCall q) (stage1 scorer probe (l₁ ++ p :: l₂) best) by
          simp [stage1, hu, hsc]]
        rw [ih best hl hp]
        simp [consEvent, scoreTrace, hu]
      | score s =>
        have hlt : ¬ HIGH_CONFIDENCE_THRESHOLD ≤ s := highHit_false_score hq hu hsc
        rw [List.cons_append,
          show stage1 scorer probe (q :: (l₁ ++ p :: l₂)) best =
            consEvent (FlowEvent.scoreCall q)
              (stage1 scorer probe (l₁ ++ p :: l₂) (bestStep best q s)) by
          simp [stage1, hu, hsc, hlt]]
        rw [ih (bestStep best q s) hl hp]
        simp [consEvent, scoreTrace, hu]
    · rw [List.cons_append,
        show stage1 scorer probe (q :: (l₁ ++ p :: l₂)) best =
          stage1 scorer probe (l₁ ++ p :: l₂) best by simp [stage1, hu]]
      rw [ih best hl hp]
      simp [scoreTrace, hu]

theorem scoredList_mem {scorer : String → String → ScoreOutcome} {probe : String}
    {l : List PatientData} {p : PatientData} {s : ℚ}
    (h : (p, s) ∈ scoredList scorer probe l) :
    p ∈ l ∧ usableImage p.faceImageUrl = true ∧
      scorer probe (p.faceImageUrl.getD "") = ScoreOutcome.score s := by
  unfold scoredList at h
  obtain ⟨q, hq, hf⟩ := List.mem_filterMap.mp h
  by_cases hu : usableImage q.faceImageUrl
  · rw [if_pos hu] at hf
    cases hsc : scorer probe (q.faceImageUrl.getD "") <;> rw [hsc] at hf
    · exact absurd hf (by simp)
    · exact absurd hf (by simp)
    · simp only [Option.some.injEq, Prod.mk.injEq] at hf
      obtain ⟨rfl, rfl⟩ := hf
      exact ⟨hq, hu, hsc⟩
  · rw [if_neg (by simp [hu])] at hf
    exact absurd hf (by simp)

theorem verifyCall_not_mem_scoreTrace (l : List PatientData) (q : PatientData) :
    FlowEvent.verifyCall q ∉ scoreTrace l := by
  simp [scoreTrace]

theorem numVerifyCalls_scoreTrace (l : List PatientData) :
    numVerifyCalls (scoreTrace l) = 0 := by
  unfold numVerifyCalls scoreTrace
  rw [List.countP_eq_zero]
  intro e he
  obtain ⟨p, _, rfl⟩ := List.mem_map.mp he
  simp [isVerifyCall]

/-- Folding the best-candidate update over a scored list, starting from a
recorded candidate with positive score: either nothing beats it (everything
scores no higher), or the fold lands on a strictly better pair at a definite
position, with everything before it strictly lower and after it no higher. -/
theorem bestFold_some_spec (sl : List (PatientData × ℚ)) :
    ∀ bc₀ : BestCandidate, 0 < bc₀.score →
      (bestFold (some bc₀) sl = some bc₀ ∧ ∀ q ∈ sl, q.2 ≤ bc₀.score) ∨
      (∃ u v bc, sl = u ++ (BestCandidate.patient bc, BestCandidate.score bc) :: v ∧
        bestFold (some bc₀) sl = some bc ∧ bc₀.score < bc.score ∧
        (∀ q ∈ u, q.2 < bc.score) ∧ (∀ q ∈ v, q.2 ≤ bc.score)) := by
  induction sl with
  | nil => intro bc₀ _; left; exact ⟨rfl, by simp⟩
  | cons q sl ih =>
    intro bc₀ h0
    obtain ⟨p, s⟩ := q
    by_cases hgt : bc₀.score < s
    · have hfold : bestFold (some bc₀) ((p, s) :: sl) = bestFold (some ⟨p, s⟩) sl := by
        simp [bestFold, bestStep, hgt]
      rcases ih ⟨p, s⟩ (lt_trans h0 hgt) with ⟨heq, hall⟩ |
        ⟨u, v, bc, hsplit, heq, hlt, hpre, hsuf⟩
      · right
        exact ⟨[], sl, ⟨p, s⟩, by simp, by rw [hfold, heq], hgt, by simp, hall⟩
      · right
        refine ⟨(p, s) :: u, v, bc, by simp [hsplit], by rw [hfold, heq],
          lt_trans hgt hlt, ?_, hsuf⟩
        intro r hr
        rcases List.mem_cons.mp hr with rfl | hr
        · exact hlt
        · exact hpre r hr
    · have hfold : bestFold (some bc₀) ((p, s) :: sl) = bestFold (some bc₀) sl := by
        simp [bestFold, bestStep, hgt]
      rcases ih bc₀ h0 with ⟨heq, hall⟩ | ⟨u, v, bc, hsplit, heq, hlt, hpre, hsuf⟩
      · left
        refine ⟨by rw [hfold, heq], ?_⟩
        intro r hr
        rcases List.mem_cons.mp hr with rfl | hr
        · exact le_of_not_lt hgt
        · exact hall r hr
      · right
        refine ⟨(p, s) :: u, v, bc, by simp [hsplit], by rw [hfold, heq], hlt, ?_, hsuf⟩
        intro r hr
        rcases List.mem_cons.mp hr with rfl | hr
        · exact lt_of_le_of_lt (le_of_not_lt hgt) hlt
        · exact hpre r hr

/-- Folding the best-candidate update from no candidate: either every obtained
score is `≤ 0` and no best is ever recorded (the `|| 0` floor), or the fold
selects the earliest pair attaining the maximum score. -/
theorem bestFold_none_spec (sl : List (PatientData × ℚ)) :
    (bestFold none sl = none ∧ ∀ q ∈ sl, q.2 ≤ 0) ∨
    (∃ bc, bestFold none sl = some bc ∧ EarliestMax sl bc) := by
  induction sl with
  | nil => left; exact ⟨rfl, by simp⟩
  | cons q sl ih =>
    obtain ⟨p, s⟩ := q
    by_cases hpos : 0 < s
    · have hfold : bestFold none ((p, s) :: sl) = bestFold (some ⟨p, s⟩) sl := by
        simp [bestFold, bestStep, hpos]
      rcases bestFold_some_spec sl ⟨p, s⟩ hpos with ⟨heq, hall⟩ |
        ⟨u, v, bc, hsplit, heq, hlt, hpre, hsuf⟩
      · right
        exact ⟨⟨p, s⟩, by rw [hfold, heq], [], sl, by simp, hpos, by simp, hall⟩
      · right
        refine ⟨bc, by rw [hfold, heq], (p, s) :: u, v, by simp [hsplit],
          lt_trans hpos hlt, ?_, hsuf⟩
        intro r hr
        rcases List.mem_cons.mp hr with rfl | hr
        · exact hlt
        · exact hpre r hr
    · have hfold : bestFold none ((p, s) :: sl) = bestFold none sl := by
        simp [bestFold, bestStep, hpos]
      rcases ih with ⟨heq, hall⟩ | ⟨bc, heq, u, v, hsplit, hbc, hpre, hsuf⟩
      · left
        refine ⟨by rw [hfold, heq], ?_⟩
        intro r hr
        rcases List.mem_cons.mp hr with rfl | hr
        · exact le_of_not_lt hpos
        · exact hall r hr
      · right
        refine ⟨bc, by rw [hfold, heq], (p, s) :: u, v, by simp [hsplit], hbc, ?_, hsuf⟩
        intro r hr
        rcases List.mem_cons.mp hr with rfl | hr
        · exact lt_of_le_of_lt (le_of_not_lt hpos) hbc
        · exact hpre r hr

/-- Stage-1 invariants: every scorer call in the trace targets a candidate
with a usable reference image, the trace has no verification calls, an early
match is a usable candidate, and (provided the incoming best candidate is
usable) the final best candidate is usable. -/
theorem stage1_usable (scorer : String → String → ScoreOutcome) (probe : String)
    (l : List PatientData) :
    ∀ best : Option BestCandidate,
      (∀ bc : BestCandidate, best = some bc → usableImage bc.patient.faceImageUrl = true) →
      (∀ q : PatientData, FlowEvent.scoreCall q ∈ (stage1 scorer probe l best).2 →
        usableImage q.faceImageUrl = true) ∧
      (∀ q : PatientData, FlowEvent.verifyCall q ∉ (stage1 scorer probe l best).2) ∧
      (∀ q : PatientData, (stage1 scorer probe l best).1 = Stage1Result.earlyMatch q →
        usableImage q.faceImageUrl = true) ∧
      (∀ bc : BestCandidate, (stage1 scorer probe l best).1 = Stage1Result.done (some bc) →
        usableImage bc.patient.faceImageUrl = true) := by
  induction l with
  | nil =>
    intro best hb
    refine ⟨by simp [stage1], by simp [stage1], by simp [stage1], ?_⟩
    intro bc h
    simp only [stage1, Stage1Result.done.injEq] at h
    exact hb bc h
  | cons patient rest ih =>
    intro best hb
    by_cases hu : usableImage patient.faceImageUrl
    · cases hsc : scorer probe (patient.faceImageUrl.getD "") with
      | err =>
        rw [show stage1 scorer probe (patient :: rest) best =
            consEvent (FlowEvent.scoreCall patient) (stage1 scorer probe rest best) by
          simp [stage1, hu, hsc]]
        obtain ⟨ihs, ihv, ihe, ihd⟩ := ih best hb
        refine ⟨?_, ?_, ihe, ihd⟩
        · intro q hq
          rcases List.mem_cons.mp hq with hq | hq
          · cases hq; exact hu
          · exact ihs q hq
        · intro q hq
          rcases List.mem_cons.mp hq with hq | hq
          · cases hq
          · exact ihv q hq
      | noOutput =>
        rw [show stage1 scorer probe (patient :: rest) best =
            consEvent (FlowEvent.scoreCall patient) (stage1 scorer probe rest best) by
          simp [stage1, hu, hsc]]
        obtain ⟨ihs, ihv, ihe, ihd⟩ := ih best hb
        refine ⟨?_, ?_, ihe, ihd⟩
        · intro q hq
          rcases List.mem_cons.mp hq with hq | hq
          · cases hq; exact hu
          · exact ihs q hq
        · intro q hq
          rcases List.mem_cons.mp hq with hq | hq
          · cases hq
          · exact ihv q hq
      | score s =>
        by_cases hge : HIGH_CONFIDENCE_THRESHOLD ≤ s
        · rw [show stage1 scorer probe (patient :: rest) best =
              (Stage1Result.earlyMatch patient, [FlowEvent.scoreCall patient]) by
            simp [stage1, hu, hsc, hge]]
          refine ⟨?_, by simp, ?_, by simp⟩
          · intro q hq
            simp only [List.mem_singleton, FlowEvent.scoreCall.injEq] at hq
            cases hq; exact hu
          · intro q hq
            simp only [Stage1Result.earlyMatch.injEq] at hq
            cases hq; exact hu
        · have hb' : ∀ bc : BestCandidate, bestStep best patient s = some bc →
              usableImage bc.patient.faceImageUrl = true := by
            intro bc h
            unfold bestStep at h
            by_cases hc : s > Option.getD (Option.map BestCandidate.score best) 0
            · rw [if_pos hc] at h
              cases h; exact hu
            · rw [if_neg hc] at h
              exact hb bc h
          rw [show stage1 scorer probe (patient :: rest) best =
              consEvent (FlowEvent.scoreCall patient)
                (stage1 scorer probe rest (bestStep best patient s)) by
            simp [stage1, hu, hsc, hge]]
          obtain ⟨ihs, ihv, ihe, ihd⟩ := ih (bestStep best patient s) hb'
          refine ⟨?_, ?_, ihe, ihd⟩
          · intro q hq
            rcases List.mem_cons.mp hq with hq | hq
            · cases hq; exact hu
            · exact ihs q hq
          · intro q hq
            rcases List.mem_cons.mp hq with hq | hq
            · cases hq
            · exact ihv q hq
    · rw [show stage1 scorer probe (patient :: rest) best =
          stage1 scorer probe rest best by simp [stage1, hu]]
      exact ih best hb

/-- A candidate whose scoring call throws is transparent to the verdict: the
stage-1 outcome over a roster with the failing candidate is the outcome over
the roster without it, and every call made without it is still made with it
(so evaluation of the remaining candidates is not halted). -/
theorem stage1_err_skip (scorer : String → String → ScoreOutcome) (probe : String)
    {p : PatientData} (hu : usableImage p.faceImageUrl = true)
    (hsc : scorer probe (p.faceImageUrl.getD "") = ScoreOutcome.err)
    (l₂ : List PatientData) (l₁ : List PatientData) :
    ∀ best : Option BestCandidate,
      (stage1 scorer probe (l₁ ++ p :: l₂) best).1 =
        (stage1 scorer probe (l₁ ++ l₂) best).1 ∧
      (∀ e : FlowEvent, e ∈ (stage1 scorer probe (l₁ ++ l₂) best).2 →
        e ∈ (stage1 scorer probe (l₁ ++ p :: l₂) best).2) := by
  induction l₁ with
  | nil =>
    intro best
    rw [List.nil_append, List.nil_append,
      show stage1 scorer probe (p :: l₂) best =
        consEvent (FlowEvent.scoreCall p) (stage1 scorer probe l₂ best) by
      simp [stage1, hu, hsc]]
    exact ⟨rfl, fun e he => List.mem_cons_of_mem _ he⟩
  | cons q l₁ ih =>
    intro best
    by_cases hqu : usableImage q.faceImageUrl
    · cases hqsc : scorer probe (q.faceImageUrl.getD "") with
      | err =>
        rw [List.cons_append, List.cons_append,
          show stage1 scorer probe (q :: (l₁ ++ p :: l₂)) best =
            consEvent (FlowEvent.scoreCall q) (stage1 scorer probe (l₁ ++ p :: l₂) best) by
          simp [stage1, hqu, hqsc],
          show stage1 scorer probe (q :: (l₁ ++ l₂)) best =
            consEvent (FlowEvent.scoreCall q) (stage1 scorer probe (l₁ ++ l₂) best) by
          simp [stage1, hqu, hqsc]]
        obtain ⟨ih1, ih2⟩ := ih best
        refine ⟨ih1, ?_⟩
        intro e he
        rcases List.mem_cons.mp he with he | he
        · exact he ▸ List.mem_cons_self _ _
        · exact List.mem_cons_of_mem _ (ih2 e he)
      | noOutput =>
        rw [List.cons_append, List.cons_append,
          show stage1 scorer probe (q :: (l₁ ++ p :: l₂)) best =
            consEvent (FlowEvent.scoreCall q) (stage1 scorer probe (l₁ ++ p :: l₂) best) by
          simp [stage1, hqu, hqsc],
          show stage1 scorer probe (q :: (l₁ ++ l₂)) best =
            consEvent (FlowEvent.scoreCall q) (stage1 scorer probe (l₁ ++ l₂) best) by
          simp [stage1, hqu, hqsc]]
        obtain ⟨ih1, ih2⟩ := ih best
        refine ⟨ih1, ?_⟩
        intro e he
        rcases List.mem_cons.mp he with he | he
        · exact he ▸ List.mem_cons_self _ _
        · exact List.mem_cons_of_mem _ (ih2 e he)
      | score s =>
        by_cases hge : HIGH_CONFIDENCE_THRESHOLD ≤ s
        · rw [List.cons_append, List.cons_append,
            show stage1 scorer probe (q :: (l₁ ++ p :: l₂)) best =
              (Stage1Result.earlyMatch q, [FlowEvent.scoreCall q]) by
            simp [stage1, hqu, hqsc, hge],
            show stage1 scorer probe (q :: (l₁ ++ l₂)) best =
              (Stage1Result.earlyMatch q, [FlowEvent.scoreCall q]) by
            simp [stage1, hqu, hqsc, hge]]
          exact ⟨rfl, fun e he => he⟩
        · rw [List.cons_append, List.cons_append,
            show stage1 scorer probe (q :: (l₁ ++ p :: l₂)) best =
              consEvent (FlowEvent.scoreCall q)
                (stage1 scorer probe (l₁ ++ p :: l₂) (bestStep best q s)) by
            simp [stage1, hqu, hqsc, hge],
            show stage1 scorer probe (q :: (l₁ ++ l₂)) best =
              consEvent (FlowEvent.scoreCall q)
                (stage1 scorer probe (l₁ ++ l₂) (bestStep best q s)) by
            simp [stage1, hqu, hqsc, hge]]
          obtain ⟨ih1, ih2⟩ := ih (bestStep best q s)
          refine ⟨ih1, ?_⟩
          intro e he
          rcases List.mem_cons.mp he with he | he
          · exact he ▸ List.mem_cons_self _ _
          · exact List.mem_cons_of_mem _ (ih2 e he)
    · rw [List.cons_append, List.cons_append,
        show stage1 scorer probe (q :: (l₁ ++ p :: l₂)) best =
          stage1 scorer probe (l₁ ++ p :: l₂) best by simp [stage1, hqu],
        show stage1 scorer probe (q :: (l₁ ++ l₂)) best =
          stage1 scorer probe (l₁ ++ l₂) best by simp [stage1, hqu]]
      exact ih best

/-! ## Scan workflow controller (`src/src/app/face-scan/page.tsx`) -/

/-- The `scanStep` state: `'initial' | 'capturing' | 'processing' | 'result'`. -/
inductive ScanStep where
  | initial : ScanStep
  | capturing : ScanStep
  | processing : ScanStep
  | result : ScanStep
deriving DecidableEq, Repr

/-- The page's React state: the six `useState` hooks of `FaceScanPage`. -/
structure ScanState where
  capturedImage : Option String
  patientData : Option PatientData
  isLoading : Bool
  scanError : Option String
  noMatchFound : Bool
  scanStep : ScanStep
deriving DecidableEq, Repr

/-- The initial values of the six `useState` hooks. -/
def initialScanState : ScanState :=
  { capturedImage := none, patientData := none, isLoading := false,
    scanError := none, noMatchFound := false, scanStep := ScanStep.initial }

/-- How one recognition-policy invocation settles: resolves with a patient,
resolves with `null`, or rejects with an error message (the message extracted
by `handleCapture`'s catch block). -/
inductive RecognitionOutcome where
  | success : PatientData → RecognitionOutcome
  | noMatch : RecognitionOutcome
  | failure : String → RecognitionOutcome
deriving DecidableEq, Repr

/-- `resetScan`: clears all six state fields back to their initial values. -/
def resetScan (_s : ScanState) : ScanState := initialScanState

/-- `handleStartScan`: enter the capturing step. -/
def handleStartScan (s : ScanState) : ScanState :=
  { s with scanStep := ScanStep.capturing }

/-- The synchronous prefix of `handleCapture`: store the captured image, move
to processing, set loading, and clear all three result fields before awaiting
the policy call. -/
def handleCaptureBegin (s : ScanState) (imageSrc : String) : ScanState :=
  { s with capturedImage := some imageSrc, scanStep := ScanStep.processing,
           isLoading := true, patientData := none, scanError := none,
           noMatchFound := false }

/-- The continuation of `handleCapture` once the awaited policy call settles:
store the outcome, then (the `finally` block) clear loading and enter the
result step — on every outcome. -/
def handleCaptureSettle (s : ScanState) (o : RecognitionOutcome) : ScanState :=
  match o with
  | RecognitionOutcome.success d =>
      { s with patientData := some d, isLoading := false, scanStep := ScanStep.result }
  | RecognitionOutcome.noMatch =>
      { s with noMatchFound := true, isLoading := false, scanStep := ScanStep.result }
  | RecognitionOutcome.failure m =>
      { s with scanError := some m, isLoading := false, scanStep := ScanStep.result }

/-- The triggers the page wires up, per step: the start button (initial), the
capture widget's `onCapture`/`onCancel` (capturing), the awaited policy call
settling (processing), and the reset button (result). -/
inductive ScanEvent where
  | startScan : ScanEvent
  | imageCaptured : String → ScanEvent
  | policyResolved : RecognitionOutcome → ScanEvent
  | cancel : ScanEvent
  | reset : ScanEvent
deriving DecidableEq, Repr

/-- The page's transition function: `some (s', n)` when the trigger is
available in the current step, where `n` counts the recognition-policy
invocations issued during the transition (`recognizeFaceAndFetchData` is
called exactly once, inside `handleCapture`). -/
def scanPageStep (s : ScanState) (e : ScanEvent) : Option (ScanState × Nat) :=
  match s.scanStep, e with
  | ScanStep.initial, ScanEvent.startScan => some (handleStartScan s, 0)
  | ScanStep.capturing, ScanEvent.imageCaptured img => some (handleCaptureBegin s img, 1)
  | ScanStep.capturing, ScanEvent.cancel => some (resetScan s, 0)
  | ScanStep.processing, ScanEvent.policyResolved o => some (handleCaptureSettle s o, 0)
  | ScanStep.result, ScanEvent.reset => some (resetScan s, 0)
  | _, _ => none

/-- `renderContent`, result branch: the error panel is shown iff `scanError`
is set. -/
def errorShown (s : ScanState) : Bool := s.scanError.isSome

/-- `renderContent`, result branch: the no-match panel is shown iff
`noMatchFound && !patientData && !scanError`. -/
def noMatchShown (s : ScanState) : Bool :=
  s.noMatchFound && s.patientData.isNone && s.scanError.isNone

/-- `renderContent`, result branch: the patient panel is shown iff
`patientData` is set. -/
def matchedShown (s : ScanState) : Bool := s.patientData.isSome

/-- Number of result presentations shown simultaneously. -/
def shownCount (s : ScanState) : Nat :=
  (if matchedShown s then 1 else 0) + (if noMatchShown s then 1 else 0) +
    (if errorShown s then 1 else 0)

/-- States the page can actually be in: reachable from the initial state via
available transitions. -/
inductive ScanReachable : ScanState → Prop where
  | init : ScanReachable initialScanState
  | next {s s' : ScanState} {e : ScanEvent} {n : Nat} :
      ScanReachable s → scanPageStep s e = some (s', n) → ScanReachable s'

/-- Inductive invariant: while processing, the three result fields are clear
(the synchronous prefix of `handleCapture` cleared them); in the result step,
exactly one presentation is shown. -/
def scanInvariant (s : ScanState) : Prop :=
  (s.scanStep = ScanStep.processing →
    s.patientData = none ∧ s.scanError = none ∧ s.noMatchFound = false) ∧
  (s.scanStep = ScanStep.result → shownCount s = 1)

theorem scanInvariant_holds {s : ScanState} (h : ScanReachable s) : scanInvariant s := by
  induction h with
  | init => exact ⟨by simp [initialScanState], by simp [initialScanState]⟩
  | next hr hstep ih =>
    rename_i s s' e n
    unfold scanPageStep at hstep
    cases hst : s.scanStep <;> rw [hst] at hstep <;> cases e <;> simp at hstep
    · obtain ⟨h1, _⟩ := hstep
      subst h1
      exact ⟨by simp [handleStartScan, hst], by simp [handleStartScan, hst]⟩
    · obtain ⟨h1, _⟩ := hstep
      subst h1
      exact ⟨by simp [handleCaptureBegin], by simp [handleCaptureBegin]⟩
    · obtain ⟨h1, _⟩ := hstep
      subst h1
      exact ⟨by simp [resetScan, initialScanState], by simp [resetScan, initialScanState]⟩
    · rename_i o
      obtain ⟨h1, -⟩ := hstep
      subst h1
      obtain ⟨hclean, -⟩ := ih
      obtain ⟨hp, he, hn⟩ := hclean hst
      cases o with
      | success d =>
        refine ⟨by simp [handleCaptureSettle], ?_⟩
        intro _
        simp [handleCaptureSettle, shownCount, matchedShown, noMatchShown, errorShown,
          hp, he, hn]
      | noMatch =>
        refine ⟨by simp [handleCaptureSettle], ?_⟩
        intro _
        simp [handleCaptureSettle, shownCount, matchedShown, noMatchShown, errorShown,
          hp, he, hn]
      | failure m =>
        refine ⟨by simp [handleCaptureSettle], ?_⟩
        intro _
        simp [handleCaptureSettle, shownCount, matchedShown, noMatchShown, errorShown,
          hp, he, hn]
    · obtain ⟨h1, _⟩ := hstep
      subst h1
      exact ⟨by simp [resetScan, initialScanState], by simp [resetScan, initialScanState]⟩

theorem numVerifyCalls_eq_zero {t : List FlowEvent}
    (h : ∀ q : PatientData, FlowEvent.verifyCall q ∉ t) : numVerifyCalls t = 0 := by
  unfold numVerifyCalls
  rw [List.countP_eq_zero]
  intro e he
  cases e with
  | scoreCall q => simp [isVerifyCall]
  | verifyCall q => exact absurd he (h q)

theorem numVerifyCalls_append_verify (t : List FlowEvent) (q : PatientData) :
    numVerifyCalls (t ++ [FlowEvent.verifyCall q]) = numVerifyCalls t + 1 := by
  simp [numVerifyCalls, List.countP_append, isVerifyCall]

theorem mem_scoredList {scorer : String → String → ScoreOutcome} {probe : String}
    {l : List PatientData} {p : PatientData} {s : ℚ} (hp : p ∈ l)
    (hu : usableImage p.faceImageUrl = true)
    (hsc : scorer probe (p.faceImageUrl.getD "") = ScoreOutcome.score s) :
    (p, s) ∈ scoredList scorer probe l := by
  unfold scoredList
  exact List.mem_filterMap.mpr ⟨p, hp, by rw [if_pos hu, hsc]⟩

/-- Normal form of stage 2 on a recorded best candidate that meets the
minimum threshold: exactly one verification call is appended, and the verdict
is matched exactly when the verifier affirms. -/
theorem stage2_done_some (verifier : String → String → String → VerifyOutcome)
    (probe : String) (bc : BestCandidate)
    (hge : MINIMUM_CONFIDENCE_THRESHOLD ≤ bc.score) (t : List FlowEvent) :
    stage2 verifier probe (Stage1Result.done (some bc), t) =
      if verifier probe (bc.patient.faceImageUrl.getD "") bc.patient.name =
          VerifyOutcome.isMatch true then
        ⟨true, some bc.patient, t ++ [FlowEvent.verifyCall bc.patient]⟩
      else ⟨false, none, t ++ [FlowEvent.verifyCall bc.patient]⟩ := by
  cases hv : verifier probe (bc.patient.faceImageUrl.getD "") bc.patient.name with
  | err => simp [stage2, hge, hv]
  | noOutput => simp [stage2, hge, hv]
  | isMatch b => cases b <;> simp [stage2, hge, hv]

/-- Stage 2 only looks at the stage-1 outcome, so two runs with the same
stage-1 outcome agree on the verdict; and if one trace is contained in the
other, the final traces are too. -/
theorem stage2_congr (verifier : String → String → String → VerifyOutcome)
    (probe : String) (x y : Stage1Result × List FlowEvent) (h1 : x.1 = y.1)
    (h2 : ∀ e ∈ x.2, e ∈ y.2) :
    (stage2 verifier probe x).matchFound = (stage2 verifier probe y).matchFound ∧
    (stage2 verifier probe x).patient = (stage2 verifier probe y).patient ∧
    (∀ e ∈ (stage2 verifier probe x).trace, e ∈ (stage2 verifier probe y).trace) := by
  obtain ⟨r, t1⟩ := x
  obtain ⟨r', t2⟩ := y
  simp only at h1 h2
  subst h1
  have hmono : ∀ v : FlowEvent, ∀ e ∈ t1 ++ [v], e ∈ t2 ++ [v] := by
    intro v e he
    rcases List.mem_append.mp he with he | he
    · exact List.mem_append.mpr (Or.inl (h2 e he))
    · exact List.mem_append.mpr (Or.inr he)
  cases r with
  | earlyMatch p => exact ⟨rfl, rfl, h2⟩
  | done best =>
    cases best with
    | none => exact ⟨rfl, rfl, h2⟩
    | some bc =>
      by_cases hge : MINIMUM_CONFIDENCE_THRESHOLD ≤ bc.score
      · rw [stage2_done_some verifier probe bc hge t1, stage2_done_some verifier probe bc hge t2]
        by_cases hv : verifier probe (bc.patient.faceImageUrl.getD "") bc.patient.name =
            VerifyOutcome.isMatch true
        · simp only [if_pos hv]
          exact ⟨trivial, trivial, hmono _⟩
        · simp only [if_neg hv]
          exact ⟨trivial, trivial, hmono _⟩
      · have e1 : ∀ t : List FlowEvent,
            stage2 verifier probe (Stage1Result.done (some bc), t) = ⟨false, none, t⟩ := by
          intro t
          simp [stage2, hge]
        rw [e1 t1, e1 t2]
        exact ⟨rfl, rfl, h2⟩

/-! ## Concrete fixtures used to witness the claims -/

def patAlice : PatientData := ⟨"p1", "Alice", some "data:image/png;base64,AAA"⟩

def patBob : PatientData := ⟨"p2", "Bob", some "data:image/png;base64,BBB"⟩

def patCara : PatientData := ⟨"p3", "Cara", none⟩

def patDiego : PatientData := ⟨"p4", "Diego", some "data:image/png;base64,DDD"⟩

/-- Scorer where Bob hits exactly the high-confidence threshold. -/
def scHigh : String → String → ScoreOutcome := fun _ reg =>
  if reg = "data:image/png;base64,AAA" then ScoreOutcome.score 80
  else if reg = "data:image/png;base64,BBB" then ScoreOutcome.score 95
  else if reg = "data:image/png;base64,DDD" then ScoreOutcome.score 90
  else ScoreOutcome.err

/-- Scorer where all obtained scores stay below the minimum threshold. -/
def scLow : String → String → ScoreOutcome := fun _ reg =>
  if reg = "data:image/png;base64,AAA" then ScoreOutcome.score 50
  else if reg = "data:image/png;base64,BBB" then ScoreOutcome.score 60
  else ScoreOutcome.err

/-- Scorer where the best candidate (Bob, 85, after Alice at 80) sits between
the two thresholds. -/
def scMid : String → String → ScoreOutcome := fun _ reg =>
  if reg = "data:image/png;base64,AAA" then ScoreOutcome.score 80
  else if reg = "data:image/png;base64,BBB" then ScoreOutcome.score 85
  else ScoreOutcome.err

/-- Scorer whose call on Alice throws. -/
def scErr : String → String → ScoreOutcome := fun _ reg =>
  if reg = "data:image/png;base64,BBB" then ScoreOutcome.score 80
  else ScoreOutcome.err

/-- Verifier that always confirms. -/
def vfYes : String → String → String → VerifyOutcome := fun _ _ _ =>
  VerifyOutcome.isMatch true

/-- Derived: if every obtained score is below the high-confidence threshold,
no candidate is a high-confidence hit. -/
theorem no_highHit_of_scores_lt {scorer : String → String → ScoreOutcome}
    {probe : String} {l : List PatientData}
    (h : ∀ q ∈ scoredList scorer probe l, q.2 < HIGH_CONFIDENCE_THRESHOLD) :
    ∀ p ∈ l, highHit scorer probe p = false := by
  intro p hp
  unfold highHit
  cases hu : usableImage p.faceImageUrl
  · simp
  · simp only [Bool.true_and]
    cases hsc : scorer probe (p.faceImageUrl.getD "") with
    | err => rfl
    | noOutput => rfl
    | score s =>
      have hs : s < HIGH_CONFIDENCE_THRESHOLD := h (p, s) (mem_scoredList hp hu hsc)
      simp [not_le.mpr hs]

/-! ## The claims -/

/-- Claim C1: for every probe image and empty candidate sequence, the
recognition flow returns the no-match verdict and performs zero scorer
invocations. -/
theorem flow_empty_roster (scorer : String → String → ScoreOutcome)
    (verifier : String → String → String → VerifyOutcome) (probe : String) :
    faceRecognitionFlow scorer verifier probe [] =
      { matchFound := false, patient := none, trace := [] } ∧
    numScoreCalls (faceRecognitionFlow scorer verifier probe []).trace = 0 :=
  ⟨rfl, rfl⟩

/-- Claim C2: if some candidate's scoring call comes back with a confidence
score meeting the high-confidence threshold (the comparison is `≥ 95`, so a
score of exactly 95 qualifies), the flow returns a matched verdict carrying
the earliest such candidate, and no candidate after it is ever scored: the
trace is exactly one scorer call per usable earlier candidate plus the hit. -/
theorem flow_high_score_shortcircuit (scorer : String → String → ScoreOutcome)
    (verifier : String → String → String → VerifyOutcome) (probe : String)
    (l₁ : List PatientData) (p : PatientData) (l₂ : List PatientData)
    (h₁ : ∀ q ∈ l₁, highHit scorer probe q = false)
    (hp : highHit scorer probe p = true) :
    faceRecognitionFlow scorer verifier probe (l₁ ++ p :: l₂) =
      { matchFound := true, patient := some p,
        trace := scoreTrace l₁ ++ [FlowEvent.scoreCall p] } := by
  unfold faceRecognitionFlow
  rw [if_neg (by simp), stage1_early scorer probe l₁ p l₂ none h₁ hp]
  rfl

theorem flow_high_score_shortcircuit_witness :
    faceRecognitionFlow scHigh vfYes "probe" ([patCara, patAlice] ++ patBob :: [patDiego]) =
      { matchFound := true, patient := some patBob,
        trace := [FlowEvent.scoreCall patAlice, FlowEvent.scoreCall patBob] } := by
  rw [flow_high_score_shortcircuit scHigh vfYes "probe" [patCara, patAlice] patBob [patDiego]
    (by decide) (by decide)]
  decide

/-- Claim C3: when every successfully obtained score is strictly below the
minimum threshold 75, the flow returns the no-match verdict and the
confirmatory verifier is never invoked. -/
theorem flow_all_low_no_verify (scorer : String → String → ScoreOutcome)
    (verifier : String → String → String → VerifyOutcome) (probe : String)
    (l : List PatientData)
    (h : ∀ q ∈ scoredList scorer probe l, q.2 < MINIMUM_CONFIDENCE_THRESHOLD) :
    (faceRecognitionFlow scorer verifier probe l).matchFound = false ∧
    (faceRecognitionFlow scorer verifier probe l).patient = none ∧
    numVerifyCalls (faceRecognitionFlow scorer verifier probe l).trace = 0 := by
  by_cases h0 : l.length = 0
  · rw [List.length_eq_zero] at h0
    subst h0
    exact ⟨rfl, rfl, rfl⟩
  · have hhigh : ∀ p ∈ l, highHit scorer probe p = false :=
      no_highHit_of_scores_lt fun q hq => lt_trans (h q hq)
        (by norm_num [MINIMUM_CONFIDENCE_THRESHOLD, HIGH_CONFIDENCE_THRESHOLD])
    unfold faceRecognitionFlow
    rw [if_neg h0, stage1_no_high scorer probe l none hhigh]
    rcases bestFold_none_spec (scoredList scorer probe l) with ⟨heq, -⟩ |
      ⟨bc, heq, u, v, hsplit, -, -, -⟩
    · rw [heq]
      exact ⟨rfl, rfl, numVerifyCalls_scoreTrace l⟩
    · rw [heq]
      have hmem : (bc.patient, bc.score) ∈ scoredList scorer probe l := by
        rw [hsplit]
        exact List.mem_append.mpr (Or.inr (List.mem_cons_self _ _))
      have hnot : ¬ MINIMUM_CONFIDENCE_THRESHOLD ≤ bc.score := not_le.mpr (h _ hmem)
      simp only [stage2, if_neg hnot]
      exact ⟨trivial, trivial, numVerifyCalls_scoreTrace l⟩

theorem flow_all_low_no_verify_witness :
    (faceRecognitionFlow scLow vfYes "probe" [patAlice, patBob, patCara]).matchFound = false ∧
    (faceRecognitionFlow scLow vfYes "probe" [patAlice, patBob, patCara]).patient = none ∧
    numVerifyCalls
      (faceRecognitionFlow scLow vfYes "probe" [patAlice, patBob, patCara]).trace = 0 :=
  flow_all_low_no_verify scLow vfYes "probe" [patAlice, patBob, patCara] (by decide)

/-- Claim C4: when stage 1 ends without a high-confidence hit but with a best
candidate whose score meets the minimum threshold, exactly one confirmatory
verification is made, against that single best candidate; an affirmative
answer yields a matched verdict with that candidate, while a negative answer
or a failed confirmatory call yields the no-match verdict (the failure is
absorbed, not propagated). -/
theorem flow_best_confirmatory (scorer : String → String → ScoreOutcome)
    (verifier : String → String → String → VerifyOutcome) (probe : String)
    (l : List PatientData) (bc : BestCandidate) (t : List FlowEvent)
    (hst : stage1 scorer probe l none = (Stage1Result.done (some bc), t))
    (hge : MINIMUM_CONFIDENCE_THRESHOLD ≤ bc.score) :
    faceRecognitionFlow scorer verifier probe l =
      (if verifier probe (bc.patient.faceImageUrl.getD "") bc.patient.name =
          VerifyOutcome.isMatch true then
        { matchFound := true, patient := some bc.patient,
          trace := t ++ [FlowEvent.verifyCall bc.patient] }
      else
        { matchFound := false, patient := none,
          trace := t ++ [FlowEvent.verifyCall bc.patient] }) ∧
    numVerifyCalls (faceRecognitionFlow scorer verifier probe l).trace = 1 := by
  have hl : ¬ l.length = 0 := by
    intro h0
    rw [List.length_eq_zero] at h0
    subst h0
    simp [stage1] at hst
  have hnv : ∀ q : PatientData, FlowEvent.verifyCall q ∉ t := by
    have hinv := (stage1_usable scorer probe l none
      (fun bc' h' => Option.noConfusion h')).2.1
    simp only [hst] at hinv
    exact hinv
  have heq : faceRecognitionFlow scorer verifier probe l =
      if verifier probe (bc.patient.faceImageUrl.getD "") bc.patient.name =
          VerifyOutcome.isMatch true then
        { matchFound := true, patient := some bc.patient,
          trace := t ++ [FlowEvent.verifyCall bc.patient] }
      else
        { matchFound := false, patient := none,
          trace := t ++ [FlowEvent.verifyCall bc.patient] } := by
    unfold faceRecognitionFlow
    rw [if_neg hl, hst, stage2_done_some verifier probe bc hge t]
  refine ⟨heq, ?_⟩
  rw [heq]
  by_cases hv : verifier probe (bc.patient.faceImageUrl.getD "") bc.patient.name =
      VerifyOutcome.isMatch true
  · rw [if_pos hv]
    show numVerifyCalls (t ++ [FlowEvent.verifyCall bc.patient]) = 1
    rw [numVerifyCalls_append_verify, numVerifyCalls_eq_zero hnv]
  · rw [if_neg hv]
    show numVerifyCalls (t ++ [FlowEvent.verifyCall bc.patient]) = 1
    rw [numVerifyCalls_append_verify, numVerifyCalls_eq_zero hnv]

theorem flow_best_confirmatory_witness :
    faceRecognitionFlow scMid vfYes "probe" [patAlice, patBob] =
      { matchFound := true, patient := some patBob,
        trace := [FlowEvent.scoreCall patAlice, FlowEvent.scoreCall patBob,
          FlowEvent.verifyCall patBob] } ∧
    numVerifyCalls (faceRecognitionFlow scMid vfYes "probe" [patAlice, patBob]).trace = 1 := by
  have h := flow_best_confirmatory scMid vfYes "probe" [patAlice, patBob]
    ⟨patBob, 85⟩ [FlowEvent.scoreCall patAlice, FlowEvent.scoreCall patBob]
    (by decide) (by decide)
  refine ⟨?_, h.2⟩
  rw [h.1]
  decide

/-- Claim C5: a scorer-call failure for one candidate records nothing for it
and does not halt evaluation: the verdict equals the verdict over the roster
without that candidate (so in particular subsequent usable candidates are
still scored — every call made without the failing candidate is also made
with it present), and the failure never surfaces as an error verdict: the
flow still returns an ordinary result. -/
theorem flow_scorer_error_absorbed (scorer : String → String → ScoreOutcome)
    (verifier : String → String → String → VerifyOutcome) (probe : String)
    (l₁ l₂ : List PatientData) (p : PatientData)
    (hu : usableImage p.faceImageUrl = true)
    (hsc : scorer probe (p.faceImageUrl.getD "") = ScoreOutcome.err) :
    (faceRecognitionFlow scorer verifier probe (l₁ ++ p :: l₂)).matchFound =
      (faceRecognitionFlow scorer verifier probe (l₁ ++ l₂)).matchFound ∧
    (faceRecognitionFlow scorer verifier probe (l₁ ++ p :: l₂)).patient =
      (faceRecognitionFlow scorer verifier probe (l₁ ++ l₂)).patient ∧
    (∀ e ∈ (faceRecognitionFlow scorer verifier probe (l₁ ++ l₂)).trace,
      e ∈ (faceRecognitionFlow scorer verifier probe (l₁ ++ p :: l₂)).trace) := by
  by_cases h0 : (l₁ ++ l₂).length = 0
  · rw [List.length_eq_zero, List.append_eq_nil] at h0
    obtain ⟨rfl, rfl⟩ := h0
    have hst : stage1 scorer probe [p] none =
        (Stage1Result.done none, [FlowEvent.scoreCall p]) := by
      simp [stage1, hu, hsc, consEvent]
    have hflow : faceRecognitionFlow scorer verifier probe ([] ++ p :: []) =
        ⟨false, none, [FlowEvent.scoreCall p]⟩ := by
      show faceRecognitionFlow scorer verifier probe [p] = _
      unfold faceRecognitionFlow
      rw [if_neg (by simp), hst]
      rfl
    rw [hflow]
    exact ⟨rfl, rfl, by simp [faceRecognitionFlow]⟩
  · unfold faceRecognitionFlow
    rw [if_neg (by simp), if_neg h0]
    obtain ⟨h1, h2⟩ := stage1_err_skip scorer probe hu hsc l₂ l₁ none
    obtain ⟨hm, hpat, ht⟩ := stage2_congr verifier probe
      (stage1 scorer probe (l₁ ++ l₂) none)
      (stage1 scorer probe (l₁ ++ p :: l₂) none) h1.symm h2
    exact ⟨hm.symm, hpat.symm, ht⟩

theorem flow_scorer_error_absorbed_witness :
    (faceRecognitionFlow scErr vfYes "probe" ([] ++ patAlice :: [patBob])).matchFound =
      (faceRecognitionFlow scErr vfYes "probe" ([] ++ [patBob])).matchFound ∧
    (faceRecognitionFlow scErr vfYes "probe" ([] ++ patAlice :: [patBob])).patient =
      (faceRecognitionFlow scErr vfYes "probe" ([] ++ [patBob])).patient ∧
    (∀ e ∈ (faceRecognitionFlow scErr vfYes "probe" ([] ++ [patBob])).trace,
      e ∈ (faceRecognitionFlow scErr vfYes "probe" ([] ++ patAlice :: [patBob])).trace) :=
  flow_scorer_error_absorbed scErr vfYes "probe" [] [patBob] patAlice (by decide) (by decide)

/-- Claim C6: best-candidate tracking uses a strict greater-than update, so
for every roster whose obtained scores all stay below the high-confidence
threshold, whenever stage 1 records a final best candidate it is the earliest
candidate attaining the maximum obtained score: every earlier scored candidate
scored strictly lower (a tie keeps the earlier candidate) and every later one
scored no higher (a strictly higher later score replaces the best). -/
theorem flow_best_tracking_earliest_max (scorer : String → String → ScoreOutcome)
    (probe : String) (l : List PatientData)
    (h : ∀ q ∈ scoredList scorer probe l, q.2 < HIGH_CONFIDENCE_THRESHOLD)
    (bc : BestCandidate) (t : List FlowEvent)
    (hst : stage1 scorer probe l none = (Stage1Result.done (some bc), t)) :
    EarliestMax (scoredList scorer probe l) bc := by
  rw [stage1_no_high scorer probe l none (no_highHit_of_scores_lt h)] at hst
  simp only [Prod.mk.injEq, Stage1Result.done.injEq] at hst
  obtain ⟨hbest, -⟩ := hst
  rcases bestFold_none_spec (scoredList scorer probe l) with ⟨heq, -⟩ | ⟨bc', heq, hem⟩
  · rw [heq] at hbest
    exact absurd hbest (by simp)
  · rw [heq] at hbest
    rw [Option.some_inj] at hbest
    exact hbest ▸ hem

theorem flow_best_tracking_earliest_max_witness :
    EarliestMax (scoredList scMid "probe" [patAlice, patBob])
      ⟨patBob, (85 : ℚ)⟩ :=
  flow_best_tracking_earliest_max scMid "probe" [patAlice, patBob] (by decide)
    ⟨patBob, (85 : ℚ)⟩ [FlowEvent.scoreCall patAlice, FlowEvent.scoreCall patBob] (by decide)

/-- Claim C7: a candidate whose reference image is absent or does not parse as
an image data URI is never passed to the scorer (every scorer call in the
trace targets a usable candidate), is never the candidate carried by a matched
verdict, and at most one candidate is returned per request: the verdict's
match flag is set exactly when the single optional patient field is. -/
theorem flow_unusable_never_match (scorer : String → String → ScoreOutcome)
    (verifier : String → String → String → VerifyOutcome) (probe : String)
    (l : List PatientData) :
    (∀ q : PatientData,
      FlowEvent.scoreCall q ∈ (faceRecognitionFlow scorer verifier probe l).trace →
        usableImage q.faceImageUrl = true) ∧
    (∀ q : PatientData, (faceRecognitionFlow scorer verifier probe l).patient = some q →
      usableImage q.faceImageUrl = true) ∧
    (faceRecognitionFlow scorer verifier probe l).matchFound =
      (faceRecognitionFlow scorer verifier probe l).patient.isSome := by
  by_cases h0 : l.length = 0
  · rw [List.length_eq_zero] at h0
    subst h0
    refine ⟨?_, ?_, rfl⟩
    · intro q hq
      exact absurd hq (by simp [faceRecognitionFlow])
    · intro q hq
      exact absurd hq (by simp [faceRecognitionFlow])
  · unfold faceRecognitionFlow
    rw [if_neg h0]
    obtain ⟨hscc, hnv, hem, hdone⟩ := stage1_usable scorer probe l none
      (fun bc' h' => Option.noConfusion h')
    rcases hst : stage1 scorer probe l none with ⟨r, t⟩
    simp only [hst] at hscc hnv hem hdone
    cases r with
    | earlyMatch q =>
      refine ⟨hscc, ?_, rfl⟩
      intro q' hq'
      exact (Option.some_inj.mp hq') ▸ hem q rfl
    | done best =>
      cases best with
      | none =>
        refine ⟨hscc, ?_, rfl⟩
        intro q' hq'
        exact absurd hq' (by simp [stage2])
      | some bc =>
        have husable : usableImage bc.patient.faceImageUrl = true := hdone bc rfl
        by_cases hge : MINIMUM_CONFIDENCE_THRESHOLD ≤ bc.score
        · rw [stage2_done_some verifier probe bc hge t]
          have htr : ∀ q : PatientData,
              FlowEvent.scoreCall q ∈ t ++ [FlowEvent.verifyCall bc.patient] →
                usableImage q.faceImageUrl = true := by
            intro q hq
            rcases List.mem_append.mp hq with hq | hq
            · exact hscc q hq
            · exact absurd hq (by simp)
          by_cases hv : verifier probe (bc.patient.faceImageUrl.getD "") bc.patient.name =
              VerifyOutcome.isMatch true
          · rw [if_pos hv]
            refine ⟨htr, ?_, rfl⟩
            intro q' hq'
            exact (Option.some_inj.mp hq') ▸ husable
          · rw [if_neg hv]
            refine ⟨htr, ?_, rfl⟩
            intro q' hq'
            exact absurd hq' (by simp)
        · have hred : stage2 verifier probe (Stage1Result.done (some bc), t) =
              ⟨false, none, t⟩ := by
            simp [stage2, hge]
          rw [hred]
          refine ⟨hscc, ?_, rfl⟩
          intro q' hq'
          exact absurd hq' (by simp)

theorem flow_unusable_never_match_witness :
    usableImage patBob.faceImageUrl = true :=
  (flow_unusable_never_match scMid vfYes "probe" [patCara, patAlice, patBob]).2.1
    patBob (by decide)

/-- Claim C10: whenever the flow reaches the final-verification stage — stage
1 ended with a recorded best candidate whose score meets the minimum
threshold — that candidate's reference-image field is necessarily present and
begins with `data:image`, so the source's non-null assertion
`bestCandidate.patient.faceImageUrl!` cannot fail: a best candidate is only
ever recorded after passing the usable-reference-image check. -/
theorem flow_best_candidate_image_present (scorer : String → String → ScoreOutcome)
    (probe : String) (l : List PatientData) (bc : BestCandidate) (t : List FlowEvent)
    (hst : stage1 scorer probe l none = (Stage1Result.done (some bc), t))
    (hge : MINIMUM_CONFIDENCE_THRESHOLD ≤ bc.score) :
    ∃ url : String, bc.patient.faceImageUrl = some url ∧
      strStartsWith url "data:image" = true := by
  have husable : usableImage bc.patient.faceImageUrl = true := by
    have hinv := (stage1_usable scorer probe l none
      (fun bc' h' => Option.noConfusion h')).2.2.2
    simp only [hst] at hinv
    exact hinv bc rfl
  cases hurl : bc.patient.faceImageUrl with
  | none => rw [hurl] at husable; exact absurd husable (by simp [usableImage])
  | some url =>
    rw [hurl] at husable
    exact ⟨url, rfl, husable⟩

theorem flow_best_candidate_image_present_witness :
    ∃ url : String, patBob.faceImageUrl = some url ∧
      strStartsWith url "data:image" = true :=
  flow_best_candidate_image_present scMid "probe" [patAlice, patBob] ⟨patBob, (85 : ℚ)⟩
    [FlowEvent.scoreCall patAlice, FlowEvent.scoreCall patBob] (by decide) (by decide)

/-- Claim C8: in the scan workflow, the cancel trigger in the capturing step
always transitions to the initial state — clearing the captured image and all
result fields — issuing zero policy invocations; and a policy invocation
happens only on the image-captured transition, which goes from capturing to
processing. -/
theorem scan_cancel_no_policy :
    (∀ s : ScanState, s.scanStep = ScanStep.capturing →
      scanPageStep s ScanEvent.cancel = some (initialScanState, 0)) ∧
    (∀ (s s' : ScanState) (e : ScanEvent) (n : Nat),
      scanPageStep s e = some (s', n) → 0 < n →
        s.scanStep = ScanStep.capturing ∧ s'.scanStep = ScanStep.processing ∧
          ∃ img : String, e = ScanEvent.imageCaptured img) := by
  constructor
  · intro s h
    unfold scanPageStep
    rw [h]
    rfl
  · intro s s' e n h hn
    unfold scanPageStep at h
    cases hst : s.scanStep <;> rw [hst] at h <;> cases e <;> simp at h
    · obtain ⟨-, hn0⟩ := h
      omega
    · rename_i img
      obtain ⟨hs', hn1⟩ := h
      subst hs'
      exact ⟨rfl, by simp [handleCaptureBegin], img, rfl⟩
    · obtain ⟨-, hn0⟩ := h
      omega
    · obtain ⟨-, hn0⟩ := h
      omega
    · obtain ⟨-, hn0⟩ := h
      omega

theorem scan_cancel_no_policy_witness :
    scanPageStep { initialScanState with scanStep := ScanStep.capturing }
      ScanEvent.cancel = some (initialScanState, 0) :=
  scan_cancel_no_policy.1 { initialScanState with scanStep := ScanStep.capturing } rfl

/-- Claim C9: a policy invocation awaited in the processing step always ends
in the result step, whatever its outcome, with zero further policy calls and
— when the call failed — its message stored verbatim in the error field; and
every reachable result state shows exactly one of the three mutually
exclusive presentations (matched, no-match, error). -/
theorem scan_result_exclusive :
    (∀ (s : ScanState) (o : RecognitionOutcome), s.scanStep = ScanStep.processing →
      ∃ s' : ScanState, scanPageStep s (ScanEvent.policyResolved o) = some (s', 0) ∧
        s'.scanStep = ScanStep.result ∧
        (∀ m : String, o = RecognitionOutcome.failure m → s'.scanError = some m)) ∧
    (∀ s : ScanState, ScanReachable s → s.scanStep = ScanStep.result →
      shownCount s = 1) := by
  constructor
  · intro s o h
    refine ⟨handleCaptureSettle s o, ?_, ?_, ?_⟩
    · unfold scanPageStep
      rw [h]
    · cases o <;> simp [handleCaptureSettle]
    · intro m hm
      subst hm
      simp [handleCaptureSettle]
  · intro s hr h
    exact (scanInvariant_holds hr).2 h

/-- Intermediate states of one concrete successful traversal of the scan
workflow, used by the reachability witness. -/
def sCapturing : ScanState := handleStartScan initialScanState

def sProcessing : ScanState := handleCaptureBegin sCapturing "img"

def sResult : ScanState := handleCaptureSettle sProcessing RecognitionOutcome.noMatch

theorem scan_result_exclusive_witness : shownCount sResult = 1 :=
  scan_result_exclusive.2 sResult
    (@ScanReachable.next sProcessing sResult
      (ScanEvent.policyResolved RecognitionOutcome.noMatch) 0
      (@ScanReachable.next sCapturing sProcessing (ScanEvent.imageCaptured "img") 1
        (@ScanReachable.next initialScanState sCapturing ScanEvent.startScan 0
          ScanReachable.init rfl) rfl) rfl) rfl
